import Mathlib

/-!
Verification of the PennyLane tutorial circuits in `I4.py` and `I5.py`.

Amplitudes of every gate appearing in the circuits without an `RZ` rotation
(Hadamard, PauliX, PauliZ, S, S-adjoint, T, T-adjoint, and the explicit
matrix `U = [[1,1],[1,-1]]/sqrt 2`) lie in the cyclotomic ring ℚ[ζ] where
ζ = exp (i·π/4) is a primitive eighth root of unity (so ζ^4 = -1 and
1/√2 = (ζ - ζ^3)/2).  We represent such amplitudes exactly and computably by
their four rational coordinates with respect to the basis 1, ζ, ζ², ζ³,
and interpret them into ℂ afterwards.  The two circuits that use `RZ`
(`fake_z` and `many_rotations`) are embedded directly over ℂ.
-/

/-- An element `a + b·ζ + c·ζ² + d·ζ³` of ℚ[ζ], ζ = exp (i·π/4), ζ⁴ = -1. -/
structure Z8 where
  a : ℚ
  b : ℚ
  c : ℚ
  d : ℚ
deriving DecidableEq, Repr

instance : Zero Z8 := ⟨⟨0, 0, 0, 0⟩⟩

instance : One Z8 := ⟨⟨1, 0, 0, 0⟩⟩

instance : Add Z8 := ⟨fun x y => ⟨x.a + y.a, x.b + y.b, x.c + y.c, x.d + y.d⟩⟩

instance : Neg Z8 := ⟨fun x => ⟨-x.a, -x.b, -x.c, -x.d⟩⟩

/-- Multiplication in ℚ[ζ], reducing powers of ζ with ζ⁴ = -1. -/
instance : Mul Z8 :=
  ⟨fun x y =>
    ⟨x.a * y.a - x.b * y.d - x.c * y.c - x.d * y.b,
     x.a * y.b + x.b * y.a - x.c * y.d - x.d * y.c,
     x.a * y.c + x.b * y.b + x.c * y.a - x.d * y.d,
     x.a * y.d + x.b * y.c + x.c * y.b + x.d * y.a⟩⟩

/-- Complex conjugation on ℚ[ζ]: conj ζ = ζ⁷ = -ζ³, conj ζ² = -ζ², conj ζ³ = -ζ. -/
def Z8.conj (x : Z8) : Z8 := ⟨x.a, -x.d, -x.c, -x.b⟩

/-- ζ itself, the matrix entry of the T gate. -/
def zeta : Z8 := ⟨0, 1, 0, 0⟩

/-- ζ⁻¹ = ζ⁷ = -ζ³, the matrix entry of the adjoint T gate. -/
def zetaInv : Z8 := ⟨0, 0, 0, -1⟩

/-- The imaginary unit i = ζ², the matrix entry of the S gate. -/
def iZ : Z8 := ⟨0, 0, 1, 0⟩

/-- 1/√2 = (ζ - ζ³)/2, the entry scale of the Hadamard matrix. -/
def isq2 : Z8 := ⟨0, 1/2, 0, -1/2⟩

/-- A single-qubit state vector (amplitude of |0⟩, amplitude of |1⟩). -/
abbrev Vec2 := Z8 × Z8

/-- A 2×2 gate matrix with entries in ℚ[ζ]. -/
structure Mat2 where
  a00 : Z8
  a01 : Z8
  a10 : Z8
  a11 : Z8
deriving DecidableEq, Repr

/-- Matrix–vector application: how a gate acts on a single-qubit state. -/
def applyM (M : Mat2) (v : Vec2) : Vec2 :=
  (M.a00 * v.1 + M.a01 * v.2, M.a10 * v.1 + M.a11 * v.2)

/-- Matrix–matrix product on 2×2 matrices. -/
def Mat2.mulM (M N : Mat2) : Mat2 :=
  ⟨M.a00 * N.a00 + M.a01 * N.a10, M.a00 * N.a01 + M.a01 * N.a11,
   M.a10 * N.a00 + M.a11 * N.a10, M.a10 * N.a01 + M.a11 * N.a11⟩

/-- Conjugate transpose of a 2×2 matrix. -/
def Mat2.dagger (M : Mat2) : Mat2 :=
  ⟨M.a00.conj, M.a10.conj, M.a01.conj, M.a11.conj⟩

/-- The 2×2 identity matrix. -/
def idM : Mat2 := ⟨1, 0, 0, 1⟩

/-- `qml.PauliX`: [[0,1],[1,0]]. -/
def Xmat : Mat2 := ⟨0, 1, 1, 0⟩

/-- `qml.PauliZ`: [[1,0],[0,-1]]. -/
def Zmat : Mat2 := ⟨1, 0, 0, -1⟩

/-- `qml.Hadamard`: [[1,1],[1,-1]]/√2. -/
def Hmat : Mat2 := ⟨isq2, isq2, isq2, -isq2⟩

/-- `qml.S`: [[1,0],[0,i]]. -/
def Smat : Mat2 := ⟨1, 0, 0, iZ⟩

/-- `qml.adjoint(qml.S)`: [[1,0],[0,-i]]. -/
def Sdgmat : Mat2 := ⟨1, 0, 0, -iZ⟩

/-- `qml.T`: [[1,0],[0,exp (i·π/4)]]. -/
def Tmat : Mat2 := ⟨1, 0, 0, zeta⟩

/-- `qml.adjoint(qml.T)`: [[1,0],[0,exp (-i·π/4)]]. -/
def Tdgmat : Mat2 := ⟨1, 0, 0, zetaInv⟩

/-- `U = np.array([[1, 1], [1, -1]]) / np.sqrt(2)` from `I4.py`. -/
def Umat : Mat2 := ⟨isq2, isq2, isq2, -isq2⟩

/-- The initial device state |0⟩ of the one-wire `default.qubit` device. -/
def ket0 : Vec2 := (1, 0)

/-- The basis state |1⟩. -/
def ket1 : Vec2 := (0, 1)

/-- `I4.py` #1, `varied_initial_state(state)`: if `state == 1` apply PauliX
then `QubitUnitary(U)`, else apply `QubitUnitary(U)`; return the state. -/
def varied_initial_state (state : ℤ) : Vec2 :=
  if state = 1 then applyM Umat (applyM Xmat ket0)
  else applyM Umat ket0

/-- `I4.py` #2, `apply_hadamard()`: apply Hadamard to |0⟩ and return the state. -/
def apply_hadamard : Vec2 := applyM Hmat ket0

/-- `I4.py` #3, `apply_hadamard_to_state(state)`: if `state == 1` apply PauliX;
then apply Hadamard; return the state. -/
def apply_hadamard_to_state (state : ℤ) : Vec2 :=
  applyM Hmat (if state = 1 then applyM Xmat ket0 else ket0)

/-- `I4.py` #4, `apply_hxh(state)`: if `state == 1` apply PauliX; then apply
Hadamard, PauliX, Hadamard; return the state. -/
def apply_hxh (state : ℤ) : Vec2 :=
  applyM Hmat (applyM Xmat (applyM Hmat
    (if state = 1 then applyM Xmat ket0 else ket0)))

/-- The conditional state-preparation step shared by the three parameterised
circuits of `I4.py`: a PauliX bit flip exactly when the flag equals 1. -/
def condX (state : ℤ) (v : Vec2) : Vec2 :=
  if state = 1 then applyM Xmat v else v

/-- `I5.py` #1, `apply_z_to_plus()`: apply Hadamard then PauliZ to |0⟩ and
return the state. -/
def apply_z_to_plus : Vec2 := applyM Zmat (applyM Hmat ket0)

/-! ### Three-qubit states, for the `wires=3` device of `I5.py` #4

A state of the three-wire `default.qubit` device assigns an amplitude to each
basis bitstring (x, y, z) with x the bit of wire 0 (most significant in the
PennyLane computational-basis ordering), y of wire 1, z of wire 2.  A
single-qubit gate applied on one wire acts by matrix multiplication on that
tensor factor. -/

/-- A three-qubit state vector, indexed by the bits of wires 0, 1, 2
(`false` is bit value 0, `true` is bit value 1). -/
abbrev St3 := Bool → Bool → Bool → Z8

/-- Entry of a 2×2 gate matrix at row `i`, column `j` (bits as Booleans). -/
def Mat2.entry (M : Mat2) (i j : Bool) : Z8 :=
  cond i (cond j M.a11 M.a10) (cond j M.a01 M.a00)

/-- Apply a single-qubit gate on wire 0 of a three-qubit state. -/
def on0 (M : Mat2) (ψ : St3) : St3 := fun x y z =>
  M.entry x false * ψ false y z + M.entry x true * ψ true y z

/-- Apply a single-qubit gate on wire 1 of a three-qubit state. -/
def on1 (M : Mat2) (ψ : St3) : St3 := fun x y z =>
  M.entry y false * ψ x false z + M.entry y true * ψ x true z

/-- Apply a single-qubit gate on wire 2 of a three-qubit state. -/
def on2 (M : Mat2) (ψ : St3) : St3 := fun x y z =>
  M.entry z false * ψ x y false + M.entry z true * ψ x y true

/-- Apply a single-qubit gate on the given wire of a three-qubit state. -/
def applyOn (w : Fin 3) : Mat2 → St3 → St3 :=
  if w = 0 then on0 else if w = 1 then on1 else on2

/-- The gates appearing in `just_enough_ts` of `I5.py`. -/
inductive G1 where
  | H : G1
  | S : G1
  | Sdg : G1
  | T : G1
  | Tdg : G1
deriving DecidableEq, BEq, Repr

/-- The matrix of each gate of `just_enough_ts`. -/
def G1.mat : G1 → Mat2
  | G1.H => Hmat
  | G1.S => Smat
  | G1.Sdg => Sdgmat
  | G1.T => Tmat
  | G1.Tdg => Tdgmat

/-- The gate sequence of `I5.py` #4, `just_enough_ts()`, as (gate, wire)
pairs in program order. -/
def just_enough_ts_ops : List (G1 × Fin 3) :=
  [(G1.H, 0), (G1.H, 1), (G1.H, 2),
   (G1.S, 0), (G1.T, 1), (G1.Tdg, 2),
   (G1.H, 0), (G1.H, 1), (G1.H, 2),
   (G1.Sdg, 0), (G1.S, 1), (G1.Sdg, 2),
   (G1.S, 1), (G1.Tdg, 2),
   (G1.H, 0), (G1.H, 1), (G1.H, 2)]

/-- Run a list of (gate, wire) operations on a three-qubit state, in order. -/
def runOps (ops : List (G1 × Fin 3)) (ψ : St3) : St3 :=
  ops.foldl (fun φ gw => applyOn gw.2 gw.1.mat φ) ψ

/-- The initial |000⟩ state of the three-wire device. -/
def ket000 : St3 := fun x y z => cond x 0 (cond y 0 (cond z 0 1))

/-- The bit of wire `w` in the computational-basis index `i` (wire 0 is the
most significant bit of the three-bit index). -/
def bitAt (w : Fin 3) (i : Fin 8) : Bool :=
  i.val / 2 ^ (2 - w.val) % 2 == 1

/-- Number of T and T-adjoint gates in an operation list (the T-count). -/
def tCount (ops : List (G1 × Fin 3)) : ℕ :=
  ops.countP fun gw => gw.1 == G1.T || gw.1 == G1.Tdg

/-- Modelled from the spec: the circuit that `just_enough_ts` optimizes is
only depicted in the tutorial and is absent from the source; `I5.py` records
its T-gate count in the commented assignment `original_t_count = 13`. -/
def original_t_count : ℕ := 13

/-! ### The complex interpretation of ℚ[ζ] amplitudes -/

/-- ζ = exp (i·π/4) as a complex number. -/
noncomputable def zeta8C : ℂ := Complex.exp ((Real.pi / 4 : ℝ) * Complex.I)

/-- Interpretation of an element of ℚ[ζ] as the complex number
`a + b·ζ + c·ζ² + d·ζ³`. -/
noncomputable def Z8.toComplex (z : Z8) : ℂ :=
  (z.a : ℂ) + (z.b : ℂ) * zeta8C + (z.c : ℂ) * zeta8C ^ 2 + (z.d : ℂ) * zeta8C ^ 3

/-- The sum of squared amplitude magnitudes of a single-qubit state. -/
noncomputable def stateNormSq (v : Vec2) : ℝ :=
  Complex.normSq v.1.toComplex + Complex.normSq v.2.toComplex

/-- `I5.py` #4: `qml.probs(wires=[0, 1, 2])`, the measurement outcome
probabilities of the state prepared by the gates of `just_enough_ts`: the
squared magnitude of each of the 8 computational-basis amplitudes. -/
noncomputable def just_enough_ts : Fin 8 → ℝ := fun i =>
  Complex.normSq (Z8.toComplex
    (runOps just_enough_ts_ops ket000 (bitAt 0 i) (bitAt 1 i) (bitAt 2 i)))

/-! ### Circuits with an `RZ` rotation, embedded directly over ℂ -/

/-- A single-qubit state vector over ℂ. -/
abbrev Vec2C := ℂ × ℂ

/-- A 2×2 gate matrix over ℂ. -/
structure Mat2C where
  a00 : ℂ
  a01 : ℂ
  a10 : ℂ
  a11 : ℂ

/-- Matrix–vector application over ℂ. -/
def applyC (M : Mat2C) (v : Vec2C) : Vec2C :=
  (M.a00 * v.1 + M.a01 * v.2, M.a10 * v.1 + M.a11 * v.2)

/-- `qml.Hadamard` over ℂ: [[1,1],[1,-1]]/√2 (with 1/√2 = √2/2). -/
noncomputable def HmatC : Mat2C :=
  ⟨((Real.sqrt 2 / 2 : ℝ) : ℂ), ((Real.sqrt 2 / 2 : ℝ) : ℂ),
   ((Real.sqrt 2 / 2 : ℝ) : ℂ), -((Real.sqrt 2 / 2 : ℝ) : ℂ)⟩

/-- `qml.S` over ℂ: [[1,0],[0,i]]. -/
def SmatC : Mat2C := ⟨1, 0, 0, Complex.I⟩

/-- `qml.adjoint(qml.S)` over ℂ: [[1,0],[0,-i]]. -/
def SdgmatC : Mat2C := ⟨1, 0, 0, -Complex.I⟩

/-- `qml.adjoint(qml.T)` over ℂ: [[1,0],[0,exp (-i·π/4)]]. -/
noncomputable def TdgmatC : Mat2C :=
  ⟨1, 0, 0, Complex.exp (-(Real.pi / 4 : ℝ) * Complex.I)⟩

/-- `qml.PauliZ` over ℂ: [[1,0],[0,-1]]. -/
def ZmatC : Mat2C := ⟨1, 0, 0, -1⟩

/-- `qml.RZ(θ)`: [[exp (-i·θ/2), 0], [0, exp (i·θ/2)]]. -/
noncomputable def RZC (θ : ℝ) : Mat2C :=
  ⟨Complex.exp (-(θ / 2 : ℝ) * Complex.I), 0,
   0, Complex.exp ((θ / 2 : ℝ) * Complex.I)⟩

/-- The initial state |0⟩ over ℂ. -/
def ket0C : Vec2C := (1, 0)

/-- The literal angle `3.14159265359` passed to `qml.RZ` in `fake_z`. -/
def rz_angle : ℝ := 3.14159265359

/-- `I5.py` #2, `fake_z()`: apply Hadamard then `RZ(3.14159265359)` to |0⟩
and return the state. -/
noncomputable def fake_z : Vec2C := applyC (RZC rz_angle) (applyC HmatC ket0C)

/-- `I5.py` #3, `many_rotations()`: apply Hadamard, S, T-adjoint, `RZ(0.3)`,
S-adjoint to |0⟩ and return the state. -/
noncomputable def many_rotations : Vec2C :=
  applyC SdgmatC (applyC (RZC 0.3) (applyC TdgmatC (applyC SmatC (applyC HmatC ket0C))))

/-- The sum of squared amplitude magnitudes of a single-qubit ℂ state. -/
noncomputable def stateNormSqC (v : Vec2C) : ℝ :=
  Complex.normSq v.1 + Complex.normSq v.2

/-- The complex interpretation of the state returned by `apply_z_to_plus`. -/
noncomputable def apply_z_to_plusC : Vec2C :=
  (apply_z_to_plus.1.toComplex, apply_z_to_plus.2.toComplex)

/-! ### Auxiliary definitions used by shape and signature claims -/

/-- A single-qubit state as a list of its amplitudes. -/
def vec2ToList (v : Vec2) : List Z8 := [v.1, v.2]

/-- A single-qubit ℂ state as a list of its amplitudes. -/
def vec2CToList (v : Vec2C) : List ℂ := [v.1, v.2]

/-- The wire count of each `qml.device("default.qubit", ...)` call: the I4
devices and the first I5 device have 1 wire, the `just_enough_ts` device 3. -/
def justEnoughTsWires : ℕ := 3

/-- Wire count of the single-qubit devices of `I4.py` and of `I5.py` #1–#3. -/
def oneQubitDeviceWires : ℕ := 1

/-- The circuit functions of the repository, in source order, each paired
with whether its Python signature takes the integer flag parameter `state`. -/
def circuitTakesFlag : List (String × Bool) :=
  [("varied_initial_state", true),
   ("apply_hadamard", false),
   ("apply_hadamard_to_state", true),
   ("apply_hxh", true),
   ("apply_z_to_plus", false),
   ("fake_z", false),
   ("many_rotations", false),
   ("just_enough_ts", false)]

/-- The product state u ⊗ v ⊗ w of three single-qubit states. -/
def prodState (u v w : Vec2) : St3 := fun x y z =>
  cond x u.2 u.1 * cond y v.2 v.1 * cond z w.2 w.1

/-- The probabilities returned by `just_enough_ts`, as a literal table. -/
noncomputable def probTable : Fin 8 → ℝ := ![0, 0, 0, 0, 3/8, 1/8, 3/8, 1/8]

/-- Matrix–matrix product over ℂ. -/
def Mat2C.mulM (M N : Mat2C) : Mat2C :=
  ⟨M.a00 * N.a00 + M.a01 * N.a10, M.a00 * N.a01 + M.a01 * N.a11,
   M.a10 * N.a00 + M.a11 * N.a10, M.a10 * N.a01 + M.a11 * N.a11⟩

/-- Conjugate transpose over ℂ. -/
def Mat2C.dagger (M : Mat2C) : Mat2C :=
  ⟨starRingEnd ℂ M.a00, starRingEnd ℂ M.a10, starRingEnd ℂ M.a01, starRingEnd ℂ M.a11⟩

/-- The 2×2 identity matrix over ℂ. -/
def idMC : Mat2C := ⟨1, 0, 0, 1⟩

/-! ### Unfolding lemmas for the ℚ[ζ] operations -/

theorem Z8.mul_def (x y : Z8) : x * y =
    ⟨x.a * y.a - x.b * y.d - x.c * y.c - x.d * y.b,
     x.a * y.b + x.b * y.a - x.c * y.d - x.d * y.c,
     x.a * y.c + x.b * y.b + x.c * y.a - x.d * y.d,
     x.a * y.d + x.b * y.c + x.c * y.b + x.d * y.a⟩ := rfl

theorem Z8.add_def (x y : Z8) :
    x + y = ⟨x.a + y.a, x.b + y.b, x.c + y.c, x.d + y.d⟩ := rfl

theorem Z8.neg_def (x : Z8) : -x = ⟨-x.a, -x.b, -x.c, -x.d⟩ := rfl

theorem Z8.zero_def : (0 : Z8) = ⟨0, 0, 0, 0⟩ := rfl

theorem Z8.one_def : (1 : Z8) = ⟨1, 0, 0, 0⟩ := rfl

/-! ### The complex interpretation -/

theorem sqrt2_mul_self : Real.sqrt 2 * Real.sqrt 2 = 2 :=
  Real.mul_self_sqrt (by norm_num)

theorem zeta8C_eq : zeta8C =
    ((Real.sqrt 2 / 2 : ℝ) : ℂ) + ((Real.sqrt 2 / 2 : ℝ) : ℂ) * Complex.I := by
  rw [zeta8C, Complex.exp_mul_I, ← Complex.ofReal_cos, ← Complex.ofReal_sin,
    Real.cos_pi_div_four, Real.sin_pi_div_four]

theorem zeta8C_sq : zeta8C ^ 2 = Complex.I := by
  rw [sq, zeta8C_eq]
  apply Complex.ext <;>
    simp [Complex.mul_re, Complex.mul_im, Complex.add_re, Complex.add_im]
  linear_combination (1 / 2) * sqrt2_mul_self

theorem zeta8C_cube : zeta8C ^ 3 =
    ((-(Real.sqrt 2 / 2) : ℝ) : ℂ) + ((Real.sqrt 2 / 2 : ℝ) : ℂ) * Complex.I := by
  rw [pow_succ, zeta8C_sq, zeta8C_eq]
  apply Complex.ext <;>
    simp [Complex.mul_re, Complex.mul_im, Complex.add_re, Complex.add_im]

theorem Z8.toComplex_re (z : Z8) :
    z.toComplex.re = (z.a : ℝ) + ((z.b : ℝ) - (z.d : ℝ)) * (Real.sqrt 2 / 2) := by
  rw [Z8.toComplex, zeta8C_sq, zeta8C_cube, zeta8C_eq]
  simp [Complex.add_re, Complex.mul_re, Complex.mul_im, Complex.add_im]
  ring

theorem Z8.toComplex_im (z : Z8) :
    z.toComplex.im = (z.c : ℝ) + ((z.b : ℝ) + (z.d : ℝ)) * (Real.sqrt 2 / 2) := by
  rw [Z8.toComplex, zeta8C_sq, zeta8C_cube, zeta8C_eq]
  simp [Complex.add_re, Complex.mul_re, Complex.mul_im, Complex.add_im]
  ring

theorem Z8.normSq_toComplex (z : Z8) :
    Complex.normSq z.toComplex =
      ((z.a ^ 2 + z.b ^ 2 + z.c ^ 2 + z.d ^ 2 : ℚ) : ℝ) +
        ((z.a * (z.b - z.d) + z.c * (z.b + z.d) : ℚ) : ℝ) * Real.sqrt 2 := by
  obtain ⟨a, b, c, d⟩ := z
  rw [Complex.normSq_apply, Z8.toComplex_re, Z8.toComplex_im]
  push_cast
  linear_combination ((((b : ℝ) - d) ^ 2 + ((b : ℝ) + d) ^ 2) / 4) * sqrt2_mul_self

/-! ### Componentwise equality and projection lemmas for ℚ[ζ] -/

theorem Z8.eq_iff (x y : Z8) :
    x = y ↔ x.a = y.a ∧ x.b = y.b ∧ x.c = y.c ∧ x.d = y.d := by
  constructor
  · rintro rfl; exact ⟨rfl, rfl, rfl, rfl⟩
  · rintro ⟨h1, h2, h3, h4⟩
    cases x; cases y
    simp only at h1 h2 h3 h4
    simp [h1, h2, h3, h4]

theorem Z8.a_zero : Z8.a 0 = 0 := rfl

theorem Z8.b_zero : Z8.b 0 = 0 := rfl

theorem Z8.c_zero : Z8.c 0 = 0 := rfl

theorem Z8.d_zero : Z8.d 0 = 0 := rfl

theorem Z8.a_one : Z8.a 1 = 1 := rfl

theorem Z8.b_one : Z8.b 1 = 0 := rfl

theorem Z8.c_one : Z8.c 1 = 0 := rfl

theorem Z8.d_one : Z8.d 1 = 0 := rfl

theorem Z8.a_neg (x : Z8) : (-x).a = -x.a := rfl

theorem Z8.b_neg (x : Z8) : (-x).b = -x.b := rfl

theorem Z8.c_neg (x : Z8) : (-x).c = -x.c := rfl

theorem Z8.d_neg (x : Z8) : (-x).d = -x.d := rfl

/-! ### Shape and value lemmas for the `I4.py` circuits -/

theorem condX_one (v : Vec2) : condX 1 v = applyM Xmat v := rfl

theorem condX_zero (v : Vec2) : condX 0 v = v := rfl

theorem condX_ne_one (s : ℤ) (h : s ≠ 1) (v : Vec2) : condX s v = v := by
  rw [condX, if_neg h]

theorem varied_initial_state_eq (s : ℤ) :
    varied_initial_state s = applyM Umat (condX s ket0) := by
  by_cases h : s = 1 <;> simp [varied_initial_state, condX, h]

theorem apply_hadamard_to_state_eq (s : ℤ) :
    apply_hadamard_to_state s = applyM Hmat (condX s ket0) := by
  by_cases h : s = 1 <;> simp [apply_hadamard_to_state, condX, h]

theorem apply_hxh_eq (s : ℤ) :
    apply_hxh s = applyM Hmat (applyM Xmat (applyM Hmat (condX s ket0))) := by
  by_cases h : s = 1 <;> simp [apply_hxh, condX, h]

theorem applyM_X_ket0 : applyM Xmat ket0 = ket1 := by
  norm_num [applyM, Xmat, ket0, ket1, Z8.mul_def, Z8.add_def, Z8.eq_iff, Z8.a_neg, Z8.b_neg, Z8.c_neg, Z8.d_neg, Z8.a_zero,
    Z8.b_zero, Z8.c_zero, Z8.d_zero, Z8.a_one, Z8.b_one, Z8.c_one, Z8.d_one, Prod.ext_iff]

theorem applyM_U_ket0 : applyM Umat ket0 = (isq2, isq2) := by
  norm_num [applyM, Umat, isq2, ket0, Z8.mul_def, Z8.add_def, Z8.neg_def, Z8.eq_iff, Z8.a_neg, Z8.b_neg, Z8.c_neg, Z8.d_neg,
    Z8.a_zero, Z8.b_zero, Z8.c_zero, Z8.d_zero, Z8.a_one, Z8.b_one, Z8.c_one, Z8.d_one,
    Prod.ext_iff]

theorem applyM_U_ket1 : applyM Umat ket1 = (isq2, -isq2) := by
  norm_num [applyM, Umat, isq2, ket1, Z8.mul_def, Z8.add_def, Z8.neg_def, Z8.eq_iff, Z8.a_neg, Z8.b_neg, Z8.c_neg, Z8.d_neg,
    Z8.a_zero, Z8.b_zero, Z8.c_zero, Z8.d_zero, Z8.a_one, Z8.b_one, Z8.c_one, Z8.d_one,
    Prod.ext_iff]

theorem apply_hxh_zero : apply_hxh 0 = applyM Zmat ket0 := by
  norm_num [apply_hxh, applyM, Hmat, Xmat, Zmat, isq2, ket0, Z8.mul_def, Z8.add_def,
    Z8.neg_def, Z8.eq_iff, Z8.a_neg, Z8.b_neg, Z8.c_neg, Z8.d_neg, Z8.a_zero, Z8.b_zero, Z8.c_zero, Z8.d_zero, Z8.a_one,
    Z8.b_one, Z8.c_one, Z8.d_one, Prod.ext_iff]

theorem apply_hxh_one : apply_hxh 1 = applyM Zmat ket1 := by
  norm_num [apply_hxh, applyM, Hmat, Xmat, Zmat, isq2, ket0, ket1, Z8.mul_def,
    Z8.add_def, Z8.neg_def, Z8.eq_iff, Z8.a_neg, Z8.b_neg, Z8.c_neg, Z8.d_neg, Z8.a_zero, Z8.b_zero, Z8.c_zero, Z8.d_zero,
    Z8.a_one, Z8.b_one, Z8.c_one, Z8.d_one, Prod.ext_iff]

theorem applyM_Z_ket0 : applyM Zmat ket0 = ket0 := by
  norm_num [applyM, Zmat, ket0, Z8.mul_def, Z8.add_def, Z8.neg_def, Z8.eq_iff, Z8.a_neg, Z8.b_neg, Z8.c_neg, Z8.d_neg,
    Z8.a_zero, Z8.b_zero, Z8.c_zero, Z8.d_zero, Z8.a_one, Z8.b_one, Z8.c_one, Z8.d_one,
    Prod.ext_iff]

theorem applyM_Z_ket1 : applyM Zmat ket1 = (0, -1) := by
  norm_num [applyM, Zmat, ket1, Z8.mul_def, Z8.add_def, Z8.neg_def, Z8.eq_iff, Z8.a_neg, Z8.b_neg, Z8.c_neg, Z8.d_neg,
    Z8.a_zero, Z8.b_zero, Z8.c_zero, Z8.d_zero, Z8.a_one, Z8.b_one, Z8.c_one, Z8.d_one,
    Prod.ext_iff]

theorem apply_z_to_plus_eval : apply_z_to_plus = (isq2, -isq2) := by
  norm_num [apply_z_to_plus, applyM, Zmat, Hmat, isq2, ket0, Z8.mul_def, Z8.add_def,
    Z8.neg_def, Z8.eq_iff, Z8.a_neg, Z8.b_neg, Z8.c_neg, Z8.d_neg, Z8.a_zero, Z8.b_zero, Z8.c_zero, Z8.d_zero, Z8.a_one,
    Z8.b_one, Z8.c_one, Z8.d_one, Prod.ext_iff]

/-! ### Norm computations for concrete states -/

theorem stateNormSq_plus : stateNormSq (isq2, isq2) = 1 := by
  rw [stateNormSq]
  norm_num [Z8.normSq_toComplex, isq2]

theorem stateNormSq_minus : stateNormSq (isq2, -isq2) = 1 := by
  rw [stateNormSq]
  norm_num [Z8.normSq_toComplex, isq2, Z8.a_neg, Z8.b_neg, Z8.c_neg, Z8.d_neg]

theorem stateNormSq_ket0 : stateNormSq ket0 = 1 := by
  rw [stateNormSq]
  norm_num [Z8.normSq_toComplex, ket0, Z8.a_zero, Z8.b_zero, Z8.c_zero, Z8.d_zero, Z8.a_one, Z8.b_one,
    Z8.c_one, Z8.d_one]

theorem stateNormSq_neg_ket1 : stateNormSq (0, -1) = 1 := by
  rw [stateNormSq]
  norm_num [Z8.normSq_toComplex, Z8.a_zero, Z8.b_zero, Z8.c_zero, Z8.d_zero, Z8.a_one, Z8.b_one,
    Z8.c_one, Z8.d_one, Z8.a_neg, Z8.b_neg, Z8.c_neg, Z8.d_neg]

/-! ### Unitarity of the gate matrices -/

theorem unitary_Xmat : Mat2.mulM Xmat (Mat2.dagger Xmat) = idM := by
  norm_num [Mat2.mulM, Mat2.dagger, Xmat, idM, Z8.conj, Z8.mul_def, Z8.add_def,
    Z8.eq_iff, Z8.a_neg, Z8.b_neg, Z8.c_neg, Z8.d_neg, Z8.a_zero, Z8.b_zero, Z8.c_zero,
    Z8.d_zero, Z8.a_one, Z8.b_one, Z8.c_one, Z8.d_one, Mat2.mk.injEq]

theorem unitary_Zmat : Mat2.mulM Zmat (Mat2.dagger Zmat) = idM := by
  norm_num [Mat2.mulM, Mat2.dagger, Zmat, idM, Z8.conj, Z8.mul_def, Z8.add_def,
    Z8.eq_iff, Z8.a_neg, Z8.b_neg, Z8.c_neg, Z8.d_neg, Z8.a_zero, Z8.b_zero, Z8.c_zero,
    Z8.d_zero, Z8.a_one, Z8.b_one, Z8.c_one, Z8.d_one, Mat2.mk.injEq]

theorem unitary_Hmat : Mat2.mulM Hmat (Mat2.dagger Hmat) = idM := by
  norm_num [Mat2.mulM, Mat2.dagger, Hmat, isq2, idM, Z8.conj, Z8.mul_def, Z8.add_def,
    Z8.eq_iff, Z8.a_neg, Z8.b_neg, Z8.c_neg, Z8.d_neg, Z8.a_zero, Z8.b_zero, Z8.c_zero,
    Z8.d_zero, Z8.a_one, Z8.b_one, Z8.c_one, Z8.d_one, Mat2.mk.injEq]

theorem unitary_Umat : Mat2.mulM Umat (Mat2.dagger Umat) = idM := by
  norm_num [Mat2.mulM, Mat2.dagger, Umat, isq2, idM, Z8.conj, Z8.mul_def, Z8.add_def,
    Z8.eq_iff, Z8.a_neg, Z8.b_neg, Z8.c_neg, Z8.d_neg, Z8.a_zero, Z8.b_zero, Z8.c_zero,
    Z8.d_zero, Z8.a_one, Z8.b_one, Z8.c_one, Z8.d_one, Mat2.mk.injEq]

theorem unitary_Smat : Mat2.mulM Smat (Mat2.dagger Smat) = idM := by
  norm_num [Mat2.mulM, Mat2.dagger, Smat, iZ, idM, Z8.conj, Z8.mul_def, Z8.add_def,
    Z8.eq_iff, Z8.a_neg, Z8.b_neg, Z8.c_neg, Z8.d_neg, Z8.a_zero, Z8.b_zero, Z8.c_zero,
    Z8.d_zero, Z8.a_one, Z8.b_one, Z8.c_one, Z8.d_one, Mat2.mk.injEq]

theorem unitary_Sdgmat : Mat2.mulM Sdgmat (Mat2.dagger Sdgmat) = idM := by
  norm_num [Mat2.mulM, Mat2.dagger, Sdgmat, iZ, idM, Z8.conj, Z8.mul_def, Z8.add_def,
    Z8.eq_iff, Z8.a_neg, Z8.b_neg, Z8.c_neg, Z8.d_neg, Z8.a_zero, Z8.b_zero, Z8.c_zero,
    Z8.d_zero, Z8.a_one, Z8.b_one, Z8.c_one, Z8.d_one, Mat2.mk.injEq]

theorem unitary_Tmat : Mat2.mulM Tmat (Mat2.dagger Tmat) = idM := by
  norm_num [Mat2.mulM, Mat2.dagger, Tmat, zeta, idM, Z8.conj, Z8.mul_def, Z8.add_def,
    Z8.eq_iff, Z8.a_neg, Z8.b_neg, Z8.c_neg, Z8.d_neg, Z8.a_zero, Z8.b_zero, Z8.c_zero,
    Z8.d_zero, Z8.a_one, Z8.b_one, Z8.c_one, Z8.d_one, Mat2.mk.injEq]

theorem unitary_Tdgmat : Mat2.mulM Tdgmat (Mat2.dagger Tdgmat) = idM := by
  norm_num [Mat2.mulM, Mat2.dagger, Tdgmat, zetaInv, idM, Z8.conj, Z8.mul_def,
    Z8.add_def, Z8.eq_iff, Z8.a_neg, Z8.b_neg, Z8.c_neg, Z8.d_neg, Z8.a_zero, Z8.b_zero,
    Z8.c_zero, Z8.d_zero, Z8.a_one, Z8.b_one, Z8.c_one, Z8.d_one, Mat2.mk.injEq]

theorem normSq_exp_I (x : ℝ) :
    Complex.normSq (Complex.exp ((x : ℝ) * Complex.I)) = 1 := by
  rw [← Complex.sq_abs, Complex.abs_exp_ofReal_mul_I, one_pow]

theorem normSq_exp_neg_I (x : ℝ) :
    Complex.normSq (Complex.exp (-((x : ℝ) : ℂ) * Complex.I)) = 1 := by
  rw [show -((x : ℝ) : ℂ) * Complex.I = ((-x : ℝ) : ℂ) * Complex.I by push_cast; ring]
  exact normSq_exp_I (-x)

theorem unitary_RZC (θ : ℝ) :
    Mat2C.mulM (RZC θ) (Mat2C.dagger (RZC θ)) = idMC := by
  simp only [Mat2C.mulM, Mat2C.dagger, RZC, idMC, map_zero, mul_zero, zero_mul,
    add_zero, zero_add, Complex.mul_conj, Mat2C.mk.injEq, normSq_exp_I,
    normSq_exp_neg_I, Complex.ofReal_one]

/-! ### Product structure of the three-qubit circuit -/

theorem Z8.a_mk (p q r s : ℚ) : Z8.a ⟨p, q, r, s⟩ = p := rfl

theorem Z8.b_mk (p q r s : ℚ) : Z8.b ⟨p, q, r, s⟩ = q := rfl

theorem Z8.c_mk (p q r s : ℚ) : Z8.c ⟨p, q, r, s⟩ = r := rfl

theorem Z8.d_mk (p q r s : ℚ) : Z8.d ⟨p, q, r, s⟩ = s := rfl

theorem applyOn_zero : applyOn 0 = on0 := rfl

theorem applyOn_one : applyOn 1 = on1 := rfl

theorem applyOn_two : applyOn 2 = on2 := rfl

theorem ket000_prod : ket000 = prodState ket0 ket0 ket0 := by
  funext x y z
  cases x <;> cases y <;> cases z <;>
    norm_num [ket000, prodState, ket0, Z8.mul_def, Z8.eq_iff, Z8.a_zero, Z8.b_zero,
      Z8.c_zero, Z8.d_zero, Z8.a_one, Z8.b_one, Z8.c_one, Z8.d_one]

set_option maxHeartbeats 1600000 in
theorem on0_prod (M : Mat2) (u v w : Vec2) :
    on0 M (prodState u v w) = prodState (applyM M u) v w := by
  funext x y z
  cases x <;>
    · simp only [on0, prodState, applyM, Mat2.entry, cond_true, cond_false,
        Z8.mul_def, Z8.add_def, Z8.a_mk, Z8.b_mk, Z8.c_mk, Z8.d_mk, Z8.eq_iff]
      refine ⟨by ring, by ring, by ring, by ring⟩

set_option maxHeartbeats 1600000 in
theorem on1_prod (M : Mat2) (u v w : Vec2) :
    on1 M (prodState u v w) = prodState u (applyM M v) w := by
  funext x y z
  cases y <;>
    · simp only [on1, prodState, applyM, Mat2.entry, cond_true, cond_false,
        Z8.mul_def, Z8.add_def, Z8.a_mk, Z8.b_mk, Z8.c_mk, Z8.d_mk, Z8.eq_iff]
      refine ⟨by ring, by ring, by ring, by ring⟩

set_option maxHeartbeats 1600000 in
theorem on2_prod (M : Mat2) (u v w : Vec2) :
    on2 M (prodState u v w) = prodState u v (applyM M w) := by
  funext x y z
  cases z <;>
    · simp only [on2, prodState, applyM, Mat2.entry, cond_true, cond_false,
        Z8.mul_def, Z8.add_def, Z8.a_mk, Z8.b_mk, Z8.c_mk, Z8.d_mk, Z8.eq_iff]
      refine ⟨by ring, by ring, by ring, by ring⟩

theorem wire0_final :
    applyM Hmat (applyM Sdgmat (applyM Hmat (applyM Smat (applyM Hmat ket0)))) = (0, zeta) := by
  norm_num [applyM, Hmat, Smat, Sdgmat, isq2, iZ, zeta, ket0, Z8.mul_def, Z8.add_def,
    Z8.neg_def, Z8.eq_iff, Z8.a_neg, Z8.b_neg, Z8.c_neg, Z8.d_neg, Z8.a_mk, Z8.b_mk,
    Z8.c_mk, Z8.d_mk, Z8.a_zero, Z8.b_zero, Z8.c_zero, Z8.d_zero, Z8.a_one, Z8.b_one,
    Z8.c_one, Z8.d_one, Prod.ext_iff]

theorem wire1_final :
    applyM Hmat (applyM Smat (applyM Smat (applyM Hmat (applyM Tmat (applyM Hmat ket0))))) =
      (⟨1/2, 0, 1/2, 0⟩, isq2) := by
  norm_num [applyM, Hmat, Smat, Tmat, isq2, iZ, zeta, ket0, Z8.mul_def, Z8.add_def,
    Z8.neg_def, Z8.eq_iff, Z8.a_neg, Z8.b_neg, Z8.c_neg, Z8.d_neg, Z8.a_mk, Z8.b_mk,
    Z8.c_mk, Z8.d_mk, Z8.a_zero, Z8.b_zero, Z8.c_zero, Z8.d_zero, Z8.a_one, Z8.b_one,
    Z8.c_one, Z8.d_one, Prod.ext_iff]

theorem wire2_final :
    applyM Hmat (applyM Tdgmat (applyM Sdgmat (applyM Hmat (applyM Tdgmat (applyM Hmat ket0))))) =
      (⟨0, 1/2, -1/2, -1/2⟩, ⟨1/2, 0, 0, 0⟩) := by
  norm_num [applyM, Hmat, Sdgmat, Tdgmat, isq2, iZ, zetaInv, ket0, Z8.mul_def, Z8.add_def,
    Z8.neg_def, Z8.eq_iff, Z8.a_neg, Z8.b_neg, Z8.c_neg, Z8.d_neg, Z8.a_mk, Z8.b_mk,
    Z8.c_mk, Z8.d_mk, Z8.a_zero, Z8.b_zero, Z8.c_zero, Z8.d_zero, Z8.a_one, Z8.b_one,
    Z8.c_one, Z8.d_one, Prod.ext_iff]

theorem just_enough_state :
    runOps just_enough_ts_ops ket000 =
      prodState (0, zeta) (⟨1/2, 0, 1/2, 0⟩, isq2) (⟨0, 1/2, -1/2, -1/2⟩, ⟨1/2, 0, 0, 0⟩) := by
  rw [runOps, just_enough_ts_ops, ket000_prod]
  simp only [List.foldl_cons, List.foldl_nil, G1.mat, applyOn_zero, applyOn_one,
    applyOn_two, on0_prod, on1_prod, on2_prod]
  rw [wire0_final, wire1_final, wire2_final]

theorem jt_zero : just_enough_ts 0 = 0 := by
  have h0 : bitAt 0 0 = false := by decide
  have h1 : bitAt 1 0 = false := by decide
  have h2 : bitAt 2 0 = false := by decide
  simp only [just_enough_ts]
  rw [just_enough_state, h0, h1, h2]
  norm_num [prodState, zeta, isq2, cond_true, cond_false, Z8.mul_def,
    Z8.normSq_toComplex, Z8.a_mk, Z8.b_mk, Z8.c_mk, Z8.d_mk, Z8.a_zero, Z8.b_zero,
    Z8.c_zero, Z8.d_zero]

theorem jt_one : just_enough_ts 1 = 0 := by
  have h0 : bitAt 0 1 = false := by decide
  have h1 : bitAt 1 1 = false := by decide
  have h2 : bitAt 2 1 = true := by decide
  simp only [just_enough_ts]
  rw [just_enough_state, h0, h1, h2]
  norm_num [prodState, zeta, isq2, cond_true, cond_false, Z8.mul_def,
    Z8.normSq_toComplex, Z8.a_mk, Z8.b_mk, Z8.c_mk, Z8.d_mk, Z8.a_zero, Z8.b_zero,
    Z8.c_zero, Z8.d_zero]

theorem jt_two : just_enough_ts 2 = 0 := by
  have h0 : bitAt 0 2 = false := by decide
  have h1 : bitAt 1 2 = true := by decide
  have h2 : bitAt 2 2 = false := by decide
  simp only [just_enough_ts]
  rw [just_enough_state, h0, h1, h2]
  norm_num [prodState, zeta, isq2, cond_true, cond_false, Z8.mul_def,
    Z8.normSq_toComplex, Z8.a_mk, Z8.b_mk, Z8.c_mk, Z8.d_mk, Z8.a_zero, Z8.b_zero,
    Z8.c_zero, Z8.d_zero]

theorem jt_three : just_enough_ts 3 = 0 := by
  have h0 : bitAt 0 3 = false := by decide
  have h1 : bitAt 1 3 = true := by decide
  have h2 : bitAt 2 3 = true := by decide
  simp only [just_enough_ts]
  rw [just_enough_state, h0, h1, h2]
  norm_num [prodState, zeta, isq2, cond_true, cond_false, Z8.mul_def,
    Z8.normSq_toComplex, Z8.a_mk, Z8.b_mk, Z8.c_mk, Z8.d_mk, Z8.a_zero, Z8.b_zero,
    Z8.c_zero, Z8.d_zero]

theorem jt_four : just_enough_ts 4 = 3 / 8 := by
  have h0 : bitAt 0 4 = true := by decide
  have h1 : bitAt 1 4 = false := by decide
  have h2 : bitAt 2 4 = false := by decide
  simp only [just_enough_ts]
  rw [just_enough_state, h0, h1, h2]
  norm_num [prodState, zeta, isq2, cond_true, cond_false, Z8.mul_def,
    Z8.normSq_toComplex, Z8.a_mk, Z8.b_mk, Z8.c_mk, Z8.d_mk, Z8.a_zero, Z8.b_zero,
    Z8.c_zero, Z8.d_zero]

theorem jt_five : just_enough_ts 5 = 1 / 8 := by
  have h0 : bitAt 0 5 = true := by decide
  have h1 : bitAt 1 5 = false := by decide
  have h2 : bitAt 2 5 = true := by decide
  simp only [just_enough_ts]
  rw [just_enough_state, h0, h1, h2]
  norm_num [prodState, zeta, isq2, cond_true, cond_false, Z8.mul_def,
    Z8.normSq_toComplex, Z8.a_mk, Z8.b_mk, Z8.c_mk, Z8.d_mk, Z8.a_zero, Z8.b_zero,
    Z8.c_zero, Z8.d_zero]

theorem jt_six : just_enough_ts 6 = 3 / 8 := by
  have h0 : bitAt 0 6 = true := by decide
  have h1 : bitAt 1 6 = true := by decide
  have h2 : bitAt 2 6 = false := by decide
  simp only [just_enough_ts]
  rw [just_enough_state, h0, h1, h2]
  norm_num [prodState, zeta, isq2, cond_true, cond_false, Z8.mul_def,
    Z8.normSq_toComplex, Z8.a_mk, Z8.b_mk, Z8.c_mk, Z8.d_mk, Z8.a_zero, Z8.b_zero,
    Z8.c_zero, Z8.d_zero]

theorem jt_seven : just_enough_ts 7 = 1 / 8 := by
  have h0 : bitAt 0 7 = true := by decide
  have h1 : bitAt 1 7 = true := by decide
  have h2 : bitAt 2 7 = true := by decide
  simp only [just_enough_ts]
  rw [just_enough_state, h0, h1, h2]
  norm_num [prodState, zeta, isq2, cond_true, cond_false, Z8.mul_def,
    Z8.normSq_toComplex, Z8.a_mk, Z8.b_mk, Z8.c_mk, Z8.d_mk, Z8.a_zero, Z8.b_zero,
    Z8.c_zero, Z8.d_zero]

theorem toComplex_neg (z : Z8) : (-z).toComplex = -z.toComplex := by
  apply Complex.ext <;>
    simp [Z8.toComplex_re, Z8.toComplex_im, Z8.a_neg, Z8.b_neg, Z8.c_neg, Z8.d_neg] <;>
    ring

theorem toComplex_isq2 : Z8.toComplex isq2 = ((Real.sqrt 2 / 2 : ℝ) : ℂ) := by
  apply Complex.ext
  · rw [Z8.toComplex_re]; norm_num [isq2]
  · rw [Z8.toComplex_im]; norm_num [isq2]

theorem fake_z_fst :
    fake_z.1 = Complex.exp (-((rz_angle / 2 : ℝ) : ℂ) * Complex.I) *
      ((Real.sqrt 2 / 2 : ℝ) : ℂ) := by
  simp [fake_z, applyC, RZC, HmatC, ket0C]

theorem fake_z_snd :
    fake_z.2 = Complex.exp (((rz_angle / 2 : ℝ) : ℂ) * Complex.I) *
      ((Real.sqrt 2 / 2 : ℝ) : ℂ) := by
  simp [fake_z, applyC, RZC, HmatC, ket0C]

theorem z_plusC_fst : apply_z_to_plusC.1 = ((Real.sqrt 2 / 2 : ℝ) : ℂ) := by
  rw [apply_z_to_plusC]
  rw [show apply_z_to_plus.1 = isq2 by rw [apply_z_to_plus_eval]]
  exact toComplex_isq2

theorem z_plusC_snd : apply_z_to_plusC.2 = -((Real.sqrt 2 / 2 : ℝ) : ℂ) := by
  rw [apply_z_to_plusC]
  rw [show apply_z_to_plus.2 = -isq2 by rw [apply_z_to_plus_eval]]
  rw [toComplex_neg, toComplex_isq2]

theorem sqrt2_div_two_ne_zero : ((Real.sqrt 2 / 2 : ℝ) : ℂ) ≠ 0 := by
  have h : (0 : ℝ) < Real.sqrt 2 / 2 := by positivity
  exact_mod_cast ne_of_gt h

theorem rz_angle_val : rz_angle = 314159265359 / 10 ^ 11 := by
  norm_num [rz_angle]

/-- C6 counterexample: as stated the claim is false — the state returned by `fake_z`
is not equal to any complex scalar multiple of the state returned by
`apply_z_to_plus`, because the angle constant 3.14159265359 is rational and
therefore not exactly π. -/
theorem C6_counterexample :
    ¬ ∃ c : ℂ, fake_z.1 = c * apply_z_to_plusC.1 ∧ fake_z.2 = c * apply_z_to_plusC.2 := by
  rw [fake_z_fst, fake_z_snd, z_plusC_fst, z_plusC_snd]
  rintro ⟨c, h1, h2⟩
  have hr := sqrt2_div_two_ne_zero
  have hc : Complex.exp (-((rz_angle / 2 : ℝ) : ℂ) * Complex.I) = c :=
    mul_right_cancel₀ hr h1
  have h2' : Complex.exp (((rz_angle / 2 : ℝ) : ℂ) * Complex.I) = -c := by
    apply mul_right_cancel₀ hr
    rw [h2]; ring
  have hprod : Complex.exp (((rz_angle / 2 : ℝ) : ℂ) * Complex.I) *
      Complex.exp (-((rz_angle / 2 : ℝ) : ℂ) * Complex.I) = 1 := by
    rw [← Complex.exp_add]
    norm_num
  have hcc : c * c = -1 := by
    rw [h2', hc] at hprod
    linear_combination -hprod
  have hE2 : Complex.exp (((2 * rz_angle : ℝ) : ℂ) * Complex.I) = 1 := by
    have hsplit : ((2 * rz_angle : ℝ) : ℂ) * Complex.I =
        ((rz_angle / 2 : ℝ) : ℂ) * Complex.I + ((rz_angle / 2 : ℝ) : ℂ) * Complex.I +
          (((rz_angle / 2 : ℝ) : ℂ) * Complex.I + ((rz_angle / 2 : ℝ) : ℂ) * Complex.I) := by
      push_cast
      ring
    rw [hsplit, Complex.exp_add, Complex.exp_add, h2']
    linear_combination (c * c - 1) * hcc
  obtain ⟨n, hn⟩ := Complex.exp_eq_one_iff.mp hE2
  have hn' : ((2 * rz_angle : ℝ) : ℂ) = (n : ℂ) * (2 * (Real.pi : ℝ)) := by
    apply mul_right_cancel₀ Complex.I_ne_zero
    rw [hn]
    ring
  have hre : (2 * rz_angle : ℝ) = (n : ℝ) * (2 * Real.pi) := by
    exact_mod_cast hn'
  have hn0 : (n : ℝ) ≠ 0 := by
    intro h
    rw [h, rz_angle_val] at hre
    norm_num at hre
  have hnq : ((n : ℚ) : ℝ) ≠ 0 := by push_cast; exact hn0
  apply irrational_pi
  refine ⟨314159265359 / (10 ^ 11 * (n : ℚ)), ?_⟩
  rw [rz_angle_val] at hre
  push_cast
  rw [div_eq_iff]
  · nlinarith [hre]
  · push_cast at hnq ⊢
    intro h
    apply hn0
    have h10 : (10 : ℝ) ^ 11 ≠ 0 := by norm_num
    rcases mul_eq_zero.mp h with h' | h'
    · exact absurd h' h10
    · exact h'

theorem abs_exp_neg_I (x : ℝ) :
    Complex.abs (Complex.exp (-((x : ℝ) : ℂ) * Complex.I)) = 1 := by
  rw [show -((x : ℝ) : ℂ) * Complex.I = ((-x : ℝ) : ℂ) * Complex.I by push_cast; ring]
  exact Complex.abs_exp_ofReal_mul_I (-x)

theorem sqrt2_div_two_eq_inv : Real.sqrt 2 / 2 = (Real.sqrt 2)⁻¹ := by
  have h : Real.sqrt 2 ≠ 0 := by positivity
  field_simp

theorem exp_pi_half : Complex.exp (((Real.pi / 2 : ℝ) : ℂ) * Complex.I) = Complex.I := by
  rw [Complex.exp_mul_I, ← Complex.ofReal_cos, ← Complex.ofReal_sin,
    Real.cos_pi_div_two, Real.sin_pi_div_two]
  norm_num

theorem exp_neg_pi_half :
    Complex.exp (-((Real.pi / 2 : ℝ) : ℂ) * Complex.I) = -Complex.I := by
  rw [show -((Real.pi / 2 : ℝ) : ℂ) * Complex.I = ((-(Real.pi / 2) : ℝ) : ℂ) * Complex.I
    by push_cast; ring]
  rw [Complex.exp_mul_I, ← Complex.ofReal_cos, ← Complex.ofReal_sin,
    Real.cos_neg, Real.sin_neg, Real.cos_pi_div_two, Real.sin_pi_div_two]
  norm_num

theorem fake_z_normSq : stateNormSqC fake_z = 1 := by
  rw [stateNormSqC, fake_z_fst, fake_z_snd, Complex.normSq_mul, Complex.normSq_mul,
    normSq_exp_I, normSq_exp_neg_I, Complex.normSq_ofReal]
  linear_combination (1 / 2) * sqrt2_mul_self

theorem many_rotations_normSq : stateNormSqC many_rotations = 1 := by
  simp only [stateNormSqC, many_rotations, applyC, SdgmatC, RZC, TdgmatC, SmatC, HmatC,
    ket0C, mul_zero, zero_mul, add_zero, zero_add, mul_one, one_mul]
  simp only [Complex.normSq_mul, normSq_exp_I, normSq_exp_neg_I, Complex.normSq_ofReal,
    Complex.normSq_I, Complex.normSq_neg]
  norm_num
  linear_combination (1 / 2) * sqrt2_mul_self

theorem RZC_pi_eq : RZC Real.pi =
    ⟨Complex.exp (-((Real.pi / 2 : ℝ) : ℂ) * Complex.I) * ZmatC.a00,
     Complex.exp (-((Real.pi / 2 : ℝ) : ℂ) * Complex.I) * ZmatC.a01,
     Complex.exp (-((Real.pi / 2 : ℝ) : ℂ) * Complex.I) * ZmatC.a10,
     Complex.exp (-((Real.pi / 2 : ℝ) : ℂ) * Complex.I) * ZmatC.a11⟩ := by
  simp only [RZC, ZmatC, exp_pi_half, exp_neg_pi_half, Mat2C.mk.injEq, mul_zero,
    mul_one, mul_neg]
  norm_num

theorem HXH_eq_Z (v : Vec2) :
    applyM Hmat (applyM Xmat (applyM Hmat v)) = applyM Zmat v := by
  simp only [applyM, Hmat, Xmat, Zmat, isq2, Z8.mul_def, Z8.add_def, Z8.neg_def,
    Z8.a_mk, Z8.b_mk, Z8.c_mk, Z8.d_mk, Z8.a_neg, Z8.b_neg, Z8.c_neg, Z8.d_neg,
    Z8.a_one, Z8.b_one, Z8.c_one, Z8.d_one, Z8.a_zero, Z8.b_zero, Z8.c_zero, Z8.d_zero,
    Prod.mk.injEq, Z8.eq_iff]
  refine ⟨⟨by ring, by ring, by ring, by ring⟩, by ring, by ring, by ring, by ring⟩

/-! ### The claims -/

/-- C1: for each input flag in {0, 1}, the state returned by `apply_hxh` equals, up
to a global phase factor of modulus 1, the result of applying Pauli-Z to the
prepared basis state: `apply_hxh 0` is proportional to |0⟩ and `apply_hxh 1` to
-|1⟩; moreover the gate sequence Hadamard, PauliX, Hadamard acts as Pauli-Z on
every single-qubit state. -/
theorem C1_hxh_acts_as_pauli_z :
    (∃ c : ℂ, Complex.abs c = 1 ∧
      (apply_hxh 0).1.toComplex = c * (applyM Zmat ket0).1.toComplex ∧
      (apply_hxh 0).2.toComplex = c * (applyM Zmat ket0).2.toComplex) ∧
    (∃ c : ℂ, Complex.abs c = 1 ∧
      (apply_hxh 1).1.toComplex = c * (applyM Zmat ket1).1.toComplex ∧
      (apply_hxh 1).2.toComplex = c * (applyM Zmat ket1).2.toComplex) ∧
    applyM Zmat ket0 = ket0 ∧ applyM Zmat ket1 = (0, -1) ∧
    (∀ v : Vec2, applyM Hmat (applyM Xmat (applyM Hmat v)) = applyM Zmat v) := by
  refine ⟨⟨1, by simp, ?_, ?_⟩, ⟨1, by simp, ?_, ?_⟩,
    applyM_Z_ket0, applyM_Z_ket1, HXH_eq_Z⟩ <;>
    rw [one_mul]
  · rw [apply_hxh_zero]
  · rw [apply_hxh_zero]
  · rw [apply_hxh_one]
  · rw [apply_hxh_one]

/-- C2: the optimized circuit `just_enough_ts` contains exactly 3 gates from
{T, T-adjoint}, while the original circuit it optimizes has a T-gate count of 13
(recorded in the source only as the commented constant `original_t_count`). -/
theorem C2_t_gate_counts : tCount just_enough_ts_ops = 3 ∧ original_t_count = 13 :=
  ⟨by decide, rfl⟩

/-- C3: every state vector returned by the circuit functions is normalized (for
every integer flag input), the probability vector of `just_enough_ts` has
nonnegative entries summing to 1, and every applied gate matrix is unitary. -/
theorem C3_normalisation_and_unitarity :
    (∀ s : ℤ, stateNormSq (varied_initial_state s) = 1) ∧
    stateNormSq apply_hadamard = 1 ∧
    (∀ s : ℤ, stateNormSq (apply_hadamard_to_state s) = 1) ∧
    (∀ s : ℤ, stateNormSq (apply_hxh s) = 1) ∧
    stateNormSq apply_z_to_plus = 1 ∧
    stateNormSqC fake_z = 1 ∧
    stateNormSqC many_rotations = 1 ∧
    (∀ i : Fin 8, 0 ≤ just_enough_ts i) ∧
    (∑ i : Fin 8, just_enough_ts i) = 1 ∧
    Mat2.mulM Umat (Mat2.dagger Umat) = idM ∧
    Mat2.mulM Hmat (Mat2.dagger Hmat) = idM ∧
    Mat2.mulM Xmat (Mat2.dagger Xmat) = idM ∧
    Mat2.mulM Zmat (Mat2.dagger Zmat) = idM ∧
    Mat2.mulM Smat (Mat2.dagger Smat) = idM ∧
    Mat2.mulM Sdgmat (Mat2.dagger Sdgmat) = idM ∧
    Mat2.mulM Tmat (Mat2.dagger Tmat) = idM ∧
    Mat2.mulM Tdgmat (Mat2.dagger Tdgmat) = idM ∧
    (∀ θ : ℝ, Mat2C.mulM (RZC θ) (Mat2C.dagger (RZC θ)) = idMC) := by
  refine ⟨?_, ?_, ?_, ?_, ?_, fake_z_normSq, many_rotations_normSq, ?_, ?_,
    unitary_Umat, unitary_Hmat, unitary_Xmat, unitary_Zmat, unitary_Smat,
    unitary_Sdgmat, unitary_Tmat, unitary_Tdgmat, unitary_RZC⟩
  · intro s
    rw [varied_initial_state_eq]
    by_cases h : s = 1
    · rw [h, condX_one, applyM_X_ket0, applyM_U_ket1]
      exact stateNormSq_minus
    · rw [condX_ne_one s h, applyM_U_ket0]
      exact stateNormSq_plus
  · have h : apply_hadamard = (isq2, isq2) := applyM_U_ket0
    rw [h]
    exact stateNormSq_plus
  · intro s
    rw [apply_hadamard_to_state_eq]
    by_cases h : s = 1
    · rw [h, condX_one, applyM_X_ket0]
      have h1 : applyM Hmat ket1 = (isq2, -isq2) := applyM_U_ket1
      rw [h1]
      exact stateNormSq_minus
    · rw [condX_ne_one s h]
      have h0 : applyM Hmat ket0 = (isq2, isq2) := applyM_U_ket0
      rw [h0]
      exact stateNormSq_plus
  · intro s
    rw [apply_hxh_eq, HXH_eq_Z]
    by_cases h : s = 1
    · rw [h, condX_one, applyM_X_ket0, applyM_Z_ket1]
      exact stateNormSq_neg_ket1
    · rw [condX_ne_one s h, applyM_Z_ket0]
      exact stateNormSq_ket0
  · rw [apply_z_to_plus_eval]
    exact stateNormSq_minus
  · intro i
    exact Complex.normSq_nonneg _
  · rw [Fin.sum_univ_eight, jt_zero, jt_one, jt_two, jt_three, jt_four, jt_five,
      jt_six, jt_seven]
    norm_num

/-- C4: each parameterised circuit applies a PauliX first exactly when the flag
equals 1, then an input-independent fixed gate sequence: the circuits for flag 0
and flag 1 differ only by the initial PauliX of the conditional preparation. -/
theorem C4_conditional_preparation_scheme :
    (∀ s : ℤ, varied_initial_state s = applyM Umat (condX s ket0) ∧
      apply_hadamard_to_state s = applyM Hmat (condX s ket0) ∧
      apply_hxh s = applyM Hmat (applyM Xmat (applyM Hmat (condX s ket0)))) ∧
    (∀ v : Vec2, condX 1 v = applyM Xmat v) ∧ (∀ v : Vec2, condX 0 v = v) :=
  ⟨fun s => ⟨varied_initial_state_eq s, apply_hadamard_to_state_eq s, apply_hxh_eq s⟩,
   condX_one, condX_zero⟩

/-- C5: `varied_initial_state` and `apply_hadamard_to_state` return identical
states on the flags 0 and 1, because the explicit matrix `U` equals the
Hadamard matrix. -/
theorem C5_U_equals_hadamard :
    Umat = Hmat ∧ varied_initial_state 0 = apply_hadamard_to_state 0 ∧
      varied_initial_state 1 = apply_hadamard_to_state 1 :=
  ⟨rfl, rfl, rfl⟩

/-- C6 (amended): the states returned by `fake_z` and `apply_z_to_plus` have
componentwise equal absolute values, each amplitude of magnitude 1/√2, and an RZ
gate at angle exactly π equals exp (-i·π/2) times Pauli-Z; but since the literal
angle 3.14159265359 of `fake_z` is rational, hence not exactly π, the two states
are not exactly equal up to a global phase (see the counterexample). -/
theorem C6_fake_z_magnitudes :
    Complex.abs fake_z.1 = Complex.abs apply_z_to_plusC.1 ∧
    Complex.abs fake_z.2 = Complex.abs apply_z_to_plusC.2 ∧
    Complex.abs fake_z.1 = (Real.sqrt 2)⁻¹ ∧
    Complex.abs fake_z.2 = (Real.sqrt 2)⁻¹ ∧
    RZC Real.pi =
      ⟨Complex.exp (-((Real.pi / 2 : ℝ) : ℂ) * Complex.I) * ZmatC.a00,
       Complex.exp (-((Real.pi / 2 : ℝ) : ℂ) * Complex.I) * ZmatC.a01,
       Complex.exp (-((Real.pi / 2 : ℝ) : ℂ) * Complex.I) * ZmatC.a10,
       Complex.exp (-((Real.pi / 2 : ℝ) : ℂ) * Complex.I) * ZmatC.a11⟩ := by
  have h1 : Complex.abs fake_z.1 = Real.sqrt 2 / 2 := by
    rw [fake_z_fst, map_mul, abs_exp_neg_I, one_mul, Complex.abs_ofReal,
      abs_of_nonneg (by positivity)]
  have h2 : Complex.abs fake_z.2 = Real.sqrt 2 / 2 := by
    rw [fake_z_snd, map_mul, Complex.abs_exp_ofReal_mul_I, one_mul, Complex.abs_ofReal,
      abs_of_nonneg (by positivity)]
  have h3 : Complex.abs apply_z_to_plusC.1 = Real.sqrt 2 / 2 := by
    rw [z_plusC_fst, Complex.abs_ofReal, abs_of_nonneg (by positivity)]
  have h4 : Complex.abs apply_z_to_plusC.2 = Real.sqrt 2 / 2 := by
    rw [z_plusC_snd, AbsoluteValue.map_neg, Complex.abs_ofReal, abs_of_nonneg (by positivity)]
  exact ⟨h1.trans h3.symm, h2.trans h4.symm, h1.trans sqrt2_div_two_eq_inv,
    h2.trans sqrt2_div_two_eq_inv, RZC_pi_eq⟩

/-- C8: every circuit of `I4.py` and the first three of `I5.py` return a state
vector of dimension 2 = 2¹ (one wire), while `just_enough_ts` returns a
probability vector of dimension 8 = 2³ over its three wires. -/
theorem C8_output_shapes :
    (∀ s : ℤ, (vec2ToList (varied_initial_state s)).length = 2 ^ oneQubitDeviceWires) ∧
    (vec2ToList apply_hadamard).length = 2 ^ oneQubitDeviceWires ∧
    (∀ s : ℤ, (vec2ToList (apply_hadamard_to_state s)).length = 2 ^ oneQubitDeviceWires) ∧
    (∀ s : ℤ, (vec2ToList (apply_hxh s)).length = 2 ^ oneQubitDeviceWires) ∧
    (vec2ToList apply_z_to_plus).length = 2 ^ oneQubitDeviceWires ∧
    (vec2CToList fake_z).length = 2 ^ oneQubitDeviceWires ∧
    (vec2CToList many_rotations).length = 2 ^ oneQubitDeviceWires ∧
    Fintype.card (Fin 8) = 2 ^ justEnoughTsWires := by
  refine ⟨fun s => rfl, rfl, fun s => rfl, fun s => rfl, rfl, rfl, rfl, ?_⟩
  simp [justEnoughTsWires]

/-- C9 counterexample: it is not the case that exactly one circuit function takes
the integer flag parameter — three of them do. -/
theorem C9_counterexample :
    ¬ circuitTakesFlag.countP (fun p => p.2) = 1 := by decide

/-- C9 (amended): exactly three of the eight circuit functions
(`varied_initial_state`, `apply_hadamard_to_state`, `apply_hxh`) take the integer
flag parameter, and the remaining five take no parameters. -/
theorem C9_three_circuits_take_flag :
    circuitTakesFlag.countP (fun p => p.2) = 3 ∧
    circuitTakesFlag.countP (fun p => !p.2) = 5 ∧
    circuitTakesFlag.length = 8 := by
  refine ⟨by decide, by decide, by decide⟩

/-- C10: for every integer flag other than 1 — not only 0 — each parameterised
circuit returns the same state as for flag 0, and the conditional preparation
leaves the qubit in |0⟩. -/
theorem C10_non_one_flags_act_like_zero (s : ℤ) (h : s ≠ 1) :
    varied_initial_state s = varied_initial_state 0 ∧
    apply_hadamard_to_state s = apply_hadamard_to_state 0 ∧
    apply_hxh s = apply_hxh 0 ∧ condX s ket0 = ket0 := by
  have hc : condX s ket0 = ket0 := condX_ne_one s h ket0
  refine ⟨?_, ?_, ?_, hc⟩
  · rw [varied_initial_state_eq s, varied_initial_state_eq 0, hc, condX_zero]
  · rw [apply_hadamard_to_state_eq s, apply_hadamard_to_state_eq 0, hc, condX_zero]
  · rw [apply_hxh_eq s, apply_hxh_eq 0, hc, condX_zero]

/-- Witness for C10 at the concrete flag 2. -/
theorem C10_non_one_flags_act_like_zero_witness :
    (2 : ℤ) ≠ 1 ∧
      (varied_initial_state 2 = varied_initial_state 0 ∧
       apply_hadamard_to_state 2 = apply_hadamard_to_state 0 ∧
       apply_hxh 2 = apply_hxh 0 ∧ condX 2 ket0 = ket0) :=
  ⟨by decide, C10_non_one_flags_act_like_zero 2 (by decide)⟩
